import Mathlib

/-!
Shallow embedding of the terrain core of the Treasure-Hunt repository
(`src/engine/perlin.rs`): fractal-noise map construction (`PerlinMap::new`),
particle-based hydraulic erosion (`PerlinMap::erode`), normalization
(`PerlinMap::normalize`) and the continuous-coordinate query interface
(`get_z`, `get_z_interpolated`, `get_normal`).

`f32` arithmetic is modelled over `ℚ`.  The two transcendental kernels used
by the erosion simulator — `f32::powf` (in the `erosion_ease` formula) and
the square root inside the `nalgebra_glm` vector norms — have irrational
values, so they are parameters of the embedding (`FloatOps`); every other
operation is translated exactly.  Division by zero, which in `f32` produces
`NaN`/`Inf`, is modelled explicitly at the places where it is reachable
(`fdiv` in `normalize`, the `DropOut.aborted` outcome in the droplet loop).
-/

namespace TreasureHunt

/-- A 2-d vector over ℚ, modelling `nalgebra_glm::Vec2`. -/
structure Vec2 where
  x : ℚ
  y : ℚ
  deriving DecidableEq, Repr

/-- A 3-d vector over ℚ, modelling `nalgebra_glm::Vec3`. -/
structure Vec3 where
  x : ℚ
  y : ℚ
  z : ℚ
  deriving DecidableEq, Repr

def Vec2.add (a b : Vec2) : Vec2 := ⟨a.x + b.x, a.y + b.y⟩

instance : Add Vec2 := ⟨Vec2.add⟩

def Vec2.sub (a b : Vec2) : Vec2 := ⟨a.x - b.x, a.y - b.y⟩

instance : Sub Vec2 := ⟨Vec2.sub⟩

/-- Scalar multiplication `q * v` on `Vec2`. -/
def Vec2.scale (q : ℚ) (a : Vec2) : Vec2 := ⟨q * a.x, q * a.y⟩

/-- Componentwise division by a scalar (`v / q`). -/
def Vec2.sdiv (a : Vec2) (q : ℚ) : Vec2 := ⟨a.x / q, a.y / q⟩

def Vec2.zero : Vec2 := ⟨0, 0⟩

/-- Squared Euclidean norm of a `Vec2` (the argument of the `sqrt` inside
`nalgebra_glm::length`). -/
def Vec2.normSq (a : Vec2) : ℚ := a.x * a.x + a.y * a.y

def Vec3.sub (a b : Vec3) : Vec3 := ⟨a.x - b.x, a.y - b.y, a.z - b.z⟩

instance : Sub Vec3 := ⟨Vec3.sub⟩

def Vec3.add (a b : Vec3) : Vec3 := ⟨a.x + b.x, a.y + b.y, a.z + b.z⟩

instance : Add Vec3 := ⟨Vec3.add⟩

def Vec3.scale (q : ℚ) (a : Vec3) : Vec3 := ⟨q * a.x, q * a.y, q * a.z⟩

def Vec3.dot (a b : Vec3) : ℚ := a.x * b.x + a.y * b.y + a.z * b.z

def Vec3.cross (a b : Vec3) : Vec3 :=
  ⟨a.y * b.z - a.z * b.y, a.z * b.x - a.x * b.z, a.x * b.y - a.y * b.x⟩

/-- The `xy` projection of a `Vec3` (`v.xy()`). -/
def Vec3.xy (a : Vec3) : Vec2 := ⟨a.x, a.y⟩

@[simp] theorem vec2_add_def (a b : Vec2) : a + b = ⟨a.x + b.x, a.y + b.y⟩ := rfl

@[simp] theorem vec2_sub_def (a b : Vec2) : a - b = ⟨a.x - b.x, a.y - b.y⟩ := rfl

@[simp] theorem vec3_add_def (a b : Vec3) :
    a + b = ⟨a.x + b.x, a.y + b.y, a.z + b.z⟩ := rfl

@[simp] theorem vec3_sub_def (a b : Vec3) :
    a - b = ⟨a.x - b.x, a.y - b.y, a.z - b.z⟩ := rfl

/-- The transcendental `f32` kernels used by `erode`/`get_normal`, left as
parameters of the embedding because their exact values are irrational:
`powf` models `f32::powf` and `sqrtq` models the square root used by the
`nalgebra_glm` norm and `normalize` functions. -/
structure FloatOps where
  powf : ℚ → ℚ → ℚ
  sqrtq : ℚ → ℚ

/-- Rust `f32 as usize` cast: truncation saturating at `0` from below. -/
def toUsize (q : ℚ) : ℕ := (⌊q⌋).toNat

/-- Model of `PerlinMap::get_z` (perlin.rs 169-174): coordinates at or beyond
`map_size` return the safe default `0.0`; otherwise the row-major cell
`data[x + y * map_size]` is read. -/
def getZ (data : List ℚ) (size x y : ℕ) : ℚ :=
  if size ≤ x ∨ size ≤ y then 0 else data.getD (x + y * size) 0

/-- The Möller–Trumbore ray/triangle `intersect` (perlin.rs 356-392).
`none` models the `None` returns; the caller in `get_z_interpolated`
`unwrap()`s the result, so `none` there would be a panic.
(`EPSILON = 0.0000001`; the determinant `a` is exactly `1` for the triangles
fed by `get_z_interpolated`, so the epsilon never fires there.) -/
def intersect (v0 v1 v2 rayO rayD : Vec3) : Option (Vec3 × ℚ) :=
  let eps : ℚ := 1 / 10000000
  let edge1 := v1 - v0
  let edge2 := v2 - v0
  let h := Vec3.cross rayD edge2
  let a := Vec3.dot edge1 h
  if |a| < eps then none
  else
    let f := 1 / a
    let s := rayO - v0
    let u := f * Vec3.dot s h
    if u < 0 ∨ 1 < u then none
    else
      let q := Vec3.cross s edge1
      let v := f * Vec3.dot rayD q
      if v < 0 ∨ 1 < u + v then none
      else
        let t := f * Vec3.dot edge2 q
        some (rayO + Vec3.scale t rayD, t)

/-- Model of `PerlinMap::get_z_interpolated` (perlin.rs 176-236).  The Rust function
`unwrap()`s the ray/triangle intersection; `none` models that panic (it is
proved below never to occur for rational inputs).  The `x_origin as usize`
casts saturate negative origins to `0`, exactly as Rust `f32 as usize`. -/
def getZInterpolated (data : List ℚ) (size : ℕ) (x y : ℚ) : Option ℚ :=
  let x0 : ℚ := ⌊x⌋
  let y0 : ℚ := ⌊y⌋
  let xo := x - x0
  let yo := y - y0
  let rayO : Vec3 := ⟨x, y, 10000⟩
  let rayD : Vec3 := ⟨0, 0, -1⟩
  if yo ≤ 1 - xo then
    (intersect ⟨x0, y0, getZ data size (toUsize x0) (toUsize y0)⟩
        ⟨x0 + 1, y0, getZ data size (toUsize x0 + 1) (toUsize y0)⟩
        ⟨x0, y0 + 1, getZ data size (toUsize x0) (toUsize y0 + 1)⟩
        rayO rayD).map (fun r => r.1.z)
  else
    (intersect ⟨x0 + 1, y0, getZ data size (toUsize x0 + 1) (toUsize y0)⟩
        ⟨x0 + 1, y0 + 1, getZ data size (toUsize x0 + 1) (toUsize y0 + 1)⟩
        ⟨x0, y0 + 1, getZ data size (toUsize x0) (toUsize y0 + 1)⟩
        rayO rayD).map (fun r => r.1.z)

example : getZ [5, 5, 5, 5] 2 0 0 = 5 := by norm_num [getZ]

example : getZ [5, 5, 5, 5] 2 2 0 = 0 := by norm_num [getZ]

example : getZInterpolated [5, 5, 5, 5] 2 (-1/2) (1/2) = some 5 := by
  norm_num [getZInterpolated, intersect, getZ, toUsize, Vec3.cross, Vec3.dot,
    Vec3.scale]
  simp

example : getZInterpolated [5, 5, 5, 5] 2 (5/2) (1/2) = some 0 := by
  norm_num [getZInterpolated, intersect, getZ, toUsize, Vec3.cross, Vec3.dot,
    Vec3.scale]
  simp

/-- Guarded division modelling the `f32` division in `normalize`: `none` models the non-finite result
(`0.0/0.0 = NaN`, `x/0.0 = ±Inf`) of dividing by zero; otherwise the exact
quotient. -/
def fdiv (a b : ℚ) : Option ℚ := if b = 0 then none else some (a / b)

/-- The value `f32::MAX = (2 - 2⁻²³) · 2¹²⁷`, the seed of the running `min` in
`normalize` (`f32::MIN = -f32::MAX` seeds the running `max`). -/
def f32Max : ℚ := 2 ^ 128 - 2 ^ 104

/-- Model of `PerlinMap::normalize` (perlin.rs 295-308): scan the data for its
minimum and maximum (seeded with `f32::MAX` / `f32::MIN`), then stretch
every cell to `(v - min) / (max - min)`.  The division is the plain `f32`
division of the source, modelled by `fdiv`: on a flat field
`max - min = 0`, so every cell becomes `0.0 / 0.0 = NaN` (`none`). -/
def normalize (data : List ℚ) : List (Option ℚ) :=
  let minV := data.foldl (fun acc v => min v acc) f32Max
  let maxV := data.foldl (fun acc v => max v acc) (-f32Max)
  data.map fun v => fdiv (v - minV) (maxV - minV)

/-- Model of `get_influence` (perlin.rs 405-415) instantiated at `T = f32`: the
bilinear blend of the four cells around `idx`.  (Rust indexing would panic
out of bounds; all call sites inside `erode` are guarded by the
`droplet_index >= len - map_size - 1` break, so `getD` only ever reads
in-bounds cells there.) -/
def getInfluenceQ (map : List ℚ) (size idx : ℕ) (off : Vec2) : ℚ :=
  map.getD idx 0 * (1 - off.x) * (1 - off.y)
    + map.getD (idx + 1) 0 * off.x * (1 - off.y)
    + map.getD (idx + size) 0 * (1 - off.x) * off.y
    + map.getD (idx + 1 + size) 0 * off.x * off.y

/-- Model of `get_influence` instantiated at `T = Vec2` (used for the velocity map). -/
def getInfluenceV (map : List Vec2) (size idx : ℕ) (off : Vec2) : Vec2 :=
  Vec2.scale ((1 - off.x) * (1 - off.y)) (map.getD idx Vec2.zero)
    + Vec2.scale (off.x * (1 - off.y)) (map.getD (idx + 1) Vec2.zero)
    + Vec2.scale ((1 - off.x) * off.y) (map.getD (idx + size) Vec2.zero)
    + Vec2.scale (off.x * off.y) (map.getD (idx + 1 + size) Vec2.zero)

/-- Model of `incr_influence` (perlin.rs 417-430) at `T = f32`: add `amt`, split by
the bilinear weights of `offset`, to the four cells around `idx`. -/
def incrInfluenceQ (map : List ℚ) (size idx : ℕ) (off : Vec2) (amt : ℚ) :
    List ℚ :=
  let m1 := map.set idx (map.getD idx 0 + amt * (1 - off.x) * (1 - off.y))
  let m2 := m1.set (idx + 1) (m1.getD (idx + 1) 0 + amt * off.x * (1 - off.y))
  let m3 := m2.set (idx + size) (m2.getD (idx + size) 0 + amt * (1 - off.x) * off.y)
  m3.set (idx + 1 + size) (m3.getD (idx + 1 + size) 0 + amt * off.x * off.y)

/-- Model of `incr_influence` at `T = Vec2` (velocity map update). -/
def incrInfluenceV (map : List Vec2) (size idx : ℕ) (off : Vec2) (amt : Vec2) :
    List Vec2 :=
  let m1 := map.set idx
    (map.getD idx Vec2.zero + Vec2.scale ((1 - off.x) * (1 - off.y)) amt)
  let m2 := m1.set (idx + 1)
    (m1.getD (idx + 1) Vec2.zero + Vec2.scale (off.x * (1 - off.y)) amt)
  let m3 := m2.set (idx + size)
    (m2.getD (idx + size) Vec2.zero + Vec2.scale ((1 - off.x) * off.y) amt)
  m3.set (idx + 1 + size)
    (m3.getD (idx + 1 + size) Vec2.zero + Vec2.scale (off.x * off.y) amt)

/-- Rust `f32::clamp(x, lo, hi)`. -/
def qclamp (x lo hi : ℚ) : ℚ := min (max x lo) hi

/-- The mass-transfer decision of one droplet step (perlin.rs 125-138).
`sediment_capacity = min 1.0 10.0 = 1`, `deposit_speed = erode_speed =
0.01`, and `0.2`/`0.01` are modelled by the exact rationals `1/5`, `1/100`
(their `f32` roundings differ only by relative 2⁻²⁴ and no claim depends on
that).  The deposit branch divides by `erosion_ease`; in `f32` that is
`Inf`/`NaN` when `erosion_ease = 0`, in ℚ it is `0` — statements touching
that branch therefore carry an `erosionEase ≠ 0` hypothesis. -/
def massTransfer (sediment deltaHeight speed erosionEase : ℚ) : ℚ :=
  let sedimentCapacity : ℚ := min 1 10
  if sedimentCapacity < sediment ∨ 0 < deltaHeight then
    let depositAmount := max (sediment - sedimentCapacity) 0 * (1 / 100) / erosionEase
    if 0 < deltaHeight then min sediment (deltaHeight * (1 / 5)) else depositAmount
  else
    -(qclamp speed 0 1 * erosionEase * (1 / 100))

/-- Model of `tri_normal` (perlin.rs 394-403): the cross product of the two triangle
edges, normalized through the square-root parameter (`nalgebra_glm`'s
`normalize` divides by the Euclidean norm).  The z component of the cross
product is exactly `1` for the axis-aligned triangles fed by `get_normal`,
so the norm is at least `1` and the division never hits zero there. -/
def triNormal (ops : FloatOps) (v0 v1 v2 : Vec3) : Vec3 :=
  let n := Vec3.cross (v1 - v0) (v2 - v0)
  let l := ops.sqrtq (Vec3.dot n n)
  ⟨n.x / l, n.y / l, n.z / l⟩

/-- Model of `PerlinMap::get_normal` (perlin.rs 238-287): same triangle selection as
`get_z_interpolated`, returning the face normal of the containing triangle. -/
def getNormal (ops : FloatOps) (data : List ℚ) (size : ℕ) (x y : ℚ) : Vec3 :=
  let x0 : ℚ := ⌊x⌋
  let y0 : ℚ := ⌊y⌋
  let xo := x - x0
  let yo := y - y0
  if yo ≤ 1 - xo then
    triNormal ops ⟨x0, y0, getZ data size (toUsize x0) (toUsize y0)⟩
      ⟨x0 + 1, y0, getZ data size (toUsize x0 + 1) (toUsize y0)⟩
      ⟨x0, y0 + 1, getZ data size (toUsize x0) (toUsize y0 + 1)⟩
  else
    triNormal ops ⟨x0 + 1, y0, getZ data size (toUsize x0 + 1) (toUsize y0)⟩
      ⟨x0 + 1, y0 + 1, getZ data size (toUsize x0 + 1) (toUsize y0 + 1)⟩
      ⟨x0, y0 + 1, getZ data size (toUsize x0) (toUsize y0 + 1)⟩

example : normalize [1, 1, 1, 1] = [none, none, none, none] := by
  norm_num [normalize, fdiv, f32Max]

example : normalize [1, 3] = [some 0, some 1] := by
  norm_num [normalize, fdiv, f32Max]

example : massTransfer (1/2) 10 1 1 = 1/2 := by
  norm_num [massTransfer]

/-- The struct `PerlinMap` (perlin.rs 21-25): the height grid in row-major
`x + y * map_size` order. -/
structure PerlinMap where
  data : List ℚ
  mapSize : ℕ
  deriving DecidableEq, Repr

/-- The mutable buffers of `erode` that survive between particles: the
height data, the velocity map and the moisture map. -/
structure ErodeState where
  data : List ℚ
  velMap : List Vec2
  moist : List ℚ
  deriving DecidableEq, Repr

/-- Per-droplet state of the inner simulation loop of `erode`: the particle
(`pos`, `vel`, `sediment`), the moisture map (mutated immediately at line
143) and the two command buffers (flushed only after the particle ends). -/
structure DropState where
  pos : Vec2
  vel : Vec2
  sediment : ℚ
  moist : List ℚ
  mapCmds : List (ℕ × Vec2 × ℚ)
  velCmds : List (ℕ × Vec2 × Vec2)
  deriving DecidableEq, Repr

/-- Outcome of a droplet's simulation loop.  `finished` carries the final
droplet state and the number of loop iterations that ran.  `aborted` models
the `f32` catastrophe at `speed = 0` (perlin.rs 110): `dir = vel / 0.0` is
`(NaN, NaN)`, `pos += dir` makes the position NaN, every comparison of the
bounds check at line 113 is false on NaN so the loop does not break, and
the next `get_z_interpolated` call hits `assert!(!x.is_nan())` — a panic
that aborts the whole `erode` call. -/
inductive DropOut where
  | finished (s : DropState) (steps : ℕ)
  | aborted
  deriving DecidableEq, Repr

/-- The droplet simulation loop of `erode` (perlin.rs 82-150), fuelled by
the Rust iteration bound `map_size / 4`.  `data` and `velMap` are the
grids as of the last flush: the Rust loop only reads them (all writes go
through the command buffers or the moisture map).

The index cast `(node.x as i32 + node.y as i32 * map_size as i32) as usize`
is modelled over ℤ: inside the loop both node coordinates are nonnegative
(spawns lie in `[0, size)²` and the bounds break keeps later positions in
`(0, size - 1)`), and a negative sum would wrap to ≥ 2⁶³ and trip the same
`droplet_index >= len - map_size - 1` break, so the disjunction below
reproduces the cast's effect.  `len - map_size - 1` is ℤ subtraction, equal
to the `usize` value for the repository's grids (`len = size² , size ≥ 2`). -/
def dropletLoop (ops : FloatOps) (data : List ℚ) (velMap : List Vec2)
    (size : ℕ) : ℕ → DropState → ℕ → DropOut
  | 0, st, steps => .finished st steps
  | fuel + 1, st, steps =>
    let nodeX : ℤ := ⌊st.pos.x⌋
    let nodeY : ℤ := ⌊st.pos.y⌋
    let idxZ : ℤ := nodeX + nodeY * size
    if idxZ < 0 ∨ (data.length : ℤ) - size - 1 ≤ idxZ then .finished st steps
    else
      let idx : ℕ := idxZ.toNat
      let cellOff : Vec2 := ⟨st.pos.x - nodeX, st.pos.y - nodeY⟩
      match getZInterpolated data size st.pos.x st.pos.y with
      | none => .aborted
      | some oldH =>
        let grad := getNormal ops data size st.pos.x st.pos.y
        let steepness := ops.sqrtq (Vec2.normSq (Vec3.xy grad))
        let erosionEase :=
          1 / ops.powf (ops.powf steepness (1 / 10) + 1) (1 / 10)
            - ops.powf (1 / 2) (1 / 10) * steepness
        let vel1 := Vec2.scale erosionEase st.vel
        let vel2 := vel1 + Vec2.scale 50 (Vec3.xy grad)
        let l := ops.sqrtq (Vec2.normSq vel2)
        let vel3 := if 0 < l then vel2.sdiv l else vel2.sdiv 1
        let velCmds' := (idx, cellOff, vel3) :: st.velCmds
        let influence := getInfluenceV velMap size idx cellOff
        let vel4 := vel3 + Vec2.scale (erosionEase * 1) influence
        let speed := ops.sqrtq (Vec2.normSq vel4)
        if speed = 0 then .aborted
        else
          let dir := vel4.sdiv speed
          let pos' := st.pos + dir
          if pos'.x ≤ 0 ∨ (size : ℚ) - 1 ≤ pos'.x
              ∨ pos'.y ≤ 0 ∨ (size : ℚ) - 1 ≤ pos'.y then
            .finished { st with pos := pos', vel := vel4, velCmds := velCmds' }
              (steps + 1)
          else
            match getZInterpolated data size pos'.x pos'.y with
            | none => .aborted
            | some newH =>
              let deltaHeight := newH - oldH
              let deltaZ := massTransfer st.sediment deltaHeight speed erosionEase
              let sediment' := st.sediment - deltaZ
              let totalSedimentChanged := 1 / 10 * |speed| / erosionEase
              let mapCmds' := (idx, cellOff, deltaZ) :: st.mapCmds
              let moist' := incrInfluenceQ st.moist size idx cellOff totalSedimentChanged
              dropletLoop ops data velMap size fuel
                ⟨pos', vel4, sediment', moist', mapCmds', velCmds'⟩ (steps + 1)

/-- The flush of the buffered height commands (perlin.rs 153-157): `pop`
each `(idx, offset, delta_z)` (most recent first — our command lists are
built by consing, so left-to-right order here is the Rust pop order) and
apply `incr_influence` to the height data. -/
def flushMapCmds (size : ℕ) (data : List ℚ) : List (ℕ × Vec2 × ℚ) → List ℚ
  | [] => data
  | (idx, off, dz) :: rest => flushMapCmds size (incrInfluenceQ data size idx off dz) rest

/-- The flush of the buffered velocity commands (perlin.rs 158-162). -/
def flushVelCmds (size : ℕ) (velMap : List Vec2) :
    List (ℕ × Vec2 × Vec2) → List Vec2
  | [] => velMap
  | (idx, off, v) :: rest => flushVelCmds size (incrInfluenceV velMap size idx off v) rest

/-- One iteration of the outer particle loop of `erode` (perlin.rs 68-163):
run a droplet from `spawn` with `vel = (0,0)`, `sediment = 0` for at most
`map_size / 4` steps, then flush the buffered commands (the flush guard
`i % 1 == 0` is always true).  `none` models the panic of `DropOut.aborted`. -/
def runParticle (ops : FloatOps) (size : ℕ) (st : ErodeState) (spawn : Vec2) :
    Option ErodeState :=
  match dropletLoop ops st.data st.velMap size (size / 4)
      ⟨spawn, Vec2.zero, 0, st.moist, [], []⟩ 0 with
  | .aborted => none
  | .finished d _ =>
    some ⟨flushMapCmds size st.data d.mapCmds,
      flushVelCmds size st.velMap d.velCmds, d.moist⟩

/-- The outer particle loop of `erode`, over an explicit list of spawn
positions (the positions `rng.gen_range` draws, in order). -/
def erodeWith (ops : FloatOps) (size : ℕ) (st : ErodeState) :
    List Vec2 → Option ErodeState
  | [] => some st
  | spawn :: rest =>
    match runParticle ops size st spawn with
    | none => none
    | some st' => erodeWith ops size st' rest

/-- The RNG `rand::rngs::StdRng` is an external library PRNG (ChaCha12) whose one
property `erode` relies on is that `seed_from_u64` makes the stream a pure
function of the 64-bit seed, advanced once per `gen_range` call.  It is
modelled by a 64-bit linear congruential generator with that interface. -/
def rngNext (s : ℕ) : ℕ := (6364136223846793005 * s + 1442695040888963407) % 2 ^ 64

/-- Model of `rng.gen_range(0.0..hi)`: a fraction in `[0, 1)` extracted
from the generator state, scaled to `[0, hi)`. -/
def rngVal (s : ℕ) (hi : ℚ) : ℚ := ((s / 2 ^ 11) % 2 ^ 32 : ℕ) / 2 ^ 32 * hi

/-- The spawn positions drawn by `erode`: two `gen_range(0.0..map_size as
f32)` draws per particle, threaded sequentially through the generator. -/
def spawnsFrom (size : ℕ) : ℕ → ℕ → List Vec2
  | _, 0 => []
  | s, n + 1 =>
    let s1 := rngNext s
    let s2 := rngNext s1
    ⟨rngVal s1 size, rngVal s2 size⟩ :: spawnsFrom size s2 n

/-- Model of `(self.map_size as f32 * intensity) as usize` (perlin.rs 66): Rust
float→integer casts truncate toward zero and saturate, so a negative
product becomes `0` — which is exactly `Int.toNat` of the floor for
nonnegative products and `0` for negative ones. -/
def totalParticles (size : ℕ) (intensity : ℚ) : ℕ := (⌊(size : ℚ) * intensity⌋).toNat

/-- Model of `PerlinMap::erode` (perlin.rs 46-167): seed the RNG from `seed`, run
`(map_size * intensity)` particles, and return the eroded map together with
the moisture map.  `none` models the NaN/assert panic described at
`DropOut.aborted`.  The progress `println!`s and the `total_eroded`
accumulator (only printed) do not influence the result and are omitted. -/
def PerlinMap.erode (ops : FloatOps) (m : PerlinMap) (intensity : ℚ) (seed : ℕ) :
    Option (PerlinMap × List ℚ) :=
  let total := totalParticles m.mapSize intensity
  let st0 : ErodeState :=
    ⟨m.data, List.replicate m.data.length Vec2.zero, List.replicate m.data.length 0⟩
  match erodeWith ops m.mapSize st0 (spawnsFrom m.mapSize (seed % 2 ^ 64) total) with
  | none => none
  | some st => some (⟨st.data, m.mapSize⟩, st.moist)

/-- Square-root table for the concrete `FloatOps` witness: the exact square
roots of every (perfect-square) value reached by the concrete runs below —
each entry `r` satisfies `r * r = q` (checked right below), which is also
the exact `f32` sqrt of these representable squares; `0` elsewhere (never
reached by those runs). -/
def modelSqrt (q : ℚ) : ℚ :=
  if q = 0 then 0
  else if q = 1 then 1
  else if q = 25/16 then 5/4
  else if q = 9/25 then 3/5
  else if q = 900 then 30
  else 0

example : (5/4 : ℚ) * (5/4) = 25/16 ∧ (3/5 : ℚ) * (3/5) = 9/25
    ∧ (30 : ℚ) * 30 = 900 := by norm_num

/-- Model of `f32::powf x c` for the concrete runs below, agreeing with it
at the exactly representable points `powf 0 c = 0` and `powf 1 c = 1` that
those runs reach (the branch value elsewhere is a stand-in; no concrete
statement depends on it). -/
def modelPowf (x _c : ℚ) : ℚ := if x = 0 then 0 else 1

/-- A concrete `FloatOps` instance for closed-form evaluation. -/
def mops : FloatOps := ⟨modelPowf, modelSqrt⟩

/-- The fixed permutation table `HASH` (perlin.rs 5-19). -/
def hashTable : List ℤ := [
  208, 34, 231, 213, 32, 248, 233, 56, 161, 78, 24, 140, 71, 48, 140,
  254, 245, 255, 247, 247, 40, 185, 248, 251, 245, 28, 124, 204, 204, 76,
  36, 1, 107, 28, 234, 163, 202, 224, 245, 128, 167, 204, 9, 92, 217,
  54, 239, 174, 173, 102, 193, 189, 190, 121, 100, 108, 167, 44, 43, 77,
  180, 204, 8, 81, 70, 223, 11, 38, 24, 254, 210, 210, 177, 32, 81,
  195, 243, 125, 8, 169, 112, 32, 97, 53, 195, 13, 203, 9, 47, 104,
  125, 117, 114, 124, 165, 203, 181, 235, 193, 206, 70, 180, 174, 0, 167,
  181, 41, 164, 30, 116, 127, 198, 245, 146, 87, 224, 149, 206, 57, 4,
  192, 210, 65, 210, 129, 240, 178, 105, 228, 108, 245, 148, 140, 40, 35,
  195, 38, 58, 65, 207, 215, 253, 65, 85, 208, 76, 62, 3, 237, 55,
  89, 232, 50, 217, 64, 244, 157, 199, 121, 252, 90, 17, 212, 203, 149,
  152, 140, 187, 234, 177, 73, 174, 193, 100, 192, 143, 97, 53, 145, 135,
  19, 103, 13, 90, 135, 151, 199, 91, 239, 247, 33, 39, 145, 101, 120,
  99, 3, 186, 86, 99, 41, 237, 203, 111, 79, 220, 135, 158, 42, 30,
  154, 120, 67, 87, 167, 135, 176, 183, 191, 253, 115, 184, 21, 233, 58,
  129, 233, 142, 39, 128, 211, 118, 137, 139, 255, 114, 20, 218, 113, 154,
  27, 127, 246, 250, 1, 8, 198, 250, 209, 92, 222, 173, 21, 88, 102,
  219]

/-- Model of `noise2` (perlin.rs 343-346).  Rust `%` on `i32` is the truncated
remainder (`Int.tmod`); its absolute value is below 256, so the table read
is always in bounds. -/
def noise2 (x y seed : ℤ) : ℤ :=
  let tmp := hashTable.getD ((y + seed).tmod 256).natAbs 0
  hashTable.getD ((tmp + x).tmod 256).natAbs 0

/-- Model of `lin_inter` (perlin.rs 352-354). -/
def linInter (x y s : ℚ) : ℚ := x + s * (y - x)

/-- Model of `smooth_inter` (perlin.rs 348-350): cubic ease `s²(3 - 2s)`. -/
def smoothInter (x y s : ℚ) : ℚ := linInter x y (s * s * (3 - 2 * s))

/-- Rust `f32 as i32`: truncation toward zero. -/
def truncToInt (q : ℚ) : ℤ := if 0 ≤ q then ⌊q⌋ else -⌊-q⌋

/-- Model of `noise2d` (perlin.rs 329-341). -/
def noise2d (x y : ℚ) (seed : ℤ) : ℚ :=
  let xInt := truncToInt x
  let yInt := truncToInt y
  let xFrac : ℚ := x - xInt
  let yFrac : ℚ := y - yInt
  let s := noise2 xInt yInt seed
  let t := noise2 (xInt + 1) yInt seed
  let u := noise2 xInt (yInt + 1) seed
  let v := noise2 (xInt + 1) (yInt + 1) seed
  let low := smoothInter s t xFrac
  let high := smoothInter u v xFrac
  smoothInter low high yFrac

/-- The octave accumulation loop of `perlin2d` (perlin.rs 318-324), with
the loop state `(xa, ya, amp, fin, div)`; returns `(fin, div)`. -/
def perlinOctaves (seed : ℤ) : ℕ → ℚ → ℚ → ℚ → ℚ → ℚ → ℚ × ℚ
  | 0, _, _, _, fin, div => (fin, div)
  | d + 1, xa, ya, amp, fin, div =>
    perlinOctaves seed d (xa * 2) (ya * 2) (amp / 2)
      (fin + noise2d xa ya seed * amp) (div + 256 * amp)

/-- Model of `perlin2d` (perlin.rs 311-327). -/
def perlin2d (x y freq : ℚ) (depth : ℕ) (seed : ℤ) : ℚ :=
  let r := perlinOctaves seed depth (x * freq) (y * freq) 1 0 0
  r.1 / r.2

/-- Model of `PerlinMap::new` (perlin.rs 33-44): `data[x + y * map_size] =
perlin2d(x, y, amplitude, 10, seed)` — the `amplitude` argument is passed
to `perlin2d` as its noise frequency. -/
def PerlinMap.new (mapSize : ℕ) (amplitude : ℚ) (seed : ℤ) : PerlinMap :=
  ⟨(List.range (mapSize * mapSize)).map fun i =>
      perlin2d ((i % mapSize : ℕ) : ℚ) ((i / mapSize : ℕ) : ℚ) amplitude 10 seed,
    mapSize⟩

/-! ### List helper lemmas -/

theorem getD_set_self (l : List ℚ) (i : ℕ) (x : ℚ) (h : i < l.length) :
    (l.set i x).getD i 0 = x := by
  simp [List.getD_eq_getElem?_getD, List.getElem?_set_eq_of_lt, h]

theorem getD_set_ne (l : List ℚ) (i j : ℕ) (x : ℚ) (h : i ≠ j) :
    (l.set i x).getD j 0 = l.getD j 0 := by
  simp [List.getD_eq_getElem?_getD, List.getElem?_set_ne, h]

theorem sum_set_rat (l : List ℚ) (i : ℕ) (x : ℚ) (h : i < l.length) :
    (l.set i x).sum = l.sum - l.getD i 0 + x := by
  induction l generalizing i with
  | nil => simp at h
  | cons a t ih =>
    cases i with
    | zero => simp [List.set]; ring
    | succ n =>
      simp only [List.set, List.sum_cons, List.getD_cons_succ]
      rw [ih n (by simpa using h)]
      ring

theorem foldl_min_le_init (l : List ℚ) (a : ℚ) :
    l.foldl (fun acc v => min v acc) a ≤ a := by
  induction l generalizing a with
  | nil => simp
  | cons b t ih => exact le_trans (ih (min b a)) (min_le_right b a)

theorem foldl_min_le_mem (l : List ℚ) (a : ℚ) (v : ℚ) (hv : v ∈ l) :
    l.foldl (fun acc v => min v acc) a ≤ v := by
  induction l generalizing a with
  | nil => simp at hv
  | cons b t ih =>
    rcases List.mem_cons.1 hv with h | h
    · subst h
      exact le_trans (foldl_min_le_init t (min v a)) (min_le_left v a)
    · exact ih (min b a) h

theorem foldl_min_mem_or (l : List ℚ) (a : ℚ) :
    l.foldl (fun acc v => min v acc) a = a ∨ l.foldl (fun acc v => min v acc) a ∈ l := by
  induction l generalizing a with
  | nil => left; rfl
  | cons b t ih =>
    rcases ih (min b a) with h | h
    · rcases min_choice b a with hb | hb
      · right; rw [List.foldl_cons, h, hb]; exact List.mem_cons_self b t
      · left; rw [List.foldl_cons, h, hb]
    · right; exact List.mem_cons_of_mem b h

theorem init_le_foldl_max (l : List ℚ) (a : ℚ) :
    a ≤ l.foldl (fun acc v => max v acc) a := by
  induction l generalizing a with
  | nil => simp
  | cons b t ih => exact le_trans (le_max_right b a) (ih (max b a))

theorem mem_le_foldl_max (l : List ℚ) (a : ℚ) (v : ℚ) (hv : v ∈ l) :
    v ≤ l.foldl (fun acc v => max v acc) a := by
  induction l generalizing a with
  | nil => simp at hv
  | cons b t ih =>
    rcases List.mem_cons.1 hv with h | h
    · subst h
      exact le_trans (le_max_left v a) (init_le_foldl_max t (max v a))
    · exact ih (max b a) h

theorem foldl_max_mem_or (l : List ℚ) (a : ℚ) :
    l.foldl (fun acc v => max v acc) a = a ∨ l.foldl (fun acc v => max v acc) a ∈ l := by
  induction l generalizing a with
  | nil => left; rfl
  | cons b t ih =>
    rcases ih (max b a) with h | h
    · rcases max_choice b a with hb | hb
      · right; rw [List.foldl_cons, h, hb]; exact List.mem_cons_self b t
      · left; rw [List.foldl_cons, h, hb]
    · right; exact List.mem_cons_of_mem b h

/-! ### C10 — bilinear influence conserves mass and is a convex blend -/

/-- C10: for every in-bounds cell index `idx` (with `map_size ≥ 2` so the
four stencil cells are distinct) and every offset with components in
`[0, 1]`, (a) the four bilinear increments of `incr_influence` change the
grid total by exactly `amt` — the weights `(1-ox)(1-oy)`, `ox(1-oy)`,
`(1-ox)oy`, `ox·oy` sum to `1` — and (b) `get_influence` is a convex
combination of the four corner cells. -/
theorem C10_influence_conservation (map : List ℚ) (size idx : ℕ) (off : Vec2)
    (amt : ℚ) (hlen : idx + 1 + size < map.length) (hsize : 2 ≤ size)
    (hx0 : 0 ≤ off.x) (hx1 : off.x ≤ 1) (hy0 : 0 ≤ off.y) (hy1 : off.y ≤ 1) :
    (incrInfluenceQ map size idx off amt).sum = map.sum + amt
      ∧ (1 - off.x) * (1 - off.y) + off.x * (1 - off.y)
          + (1 - off.x) * off.y + off.x * off.y = 1
      ∧ ∃ w1 w2 w3 w4 : ℚ, 0 ≤ w1 ∧ 0 ≤ w2 ∧ 0 ≤ w3 ∧ 0 ≤ w4
          ∧ w1 + w2 + w3 + w4 = 1
          ∧ getInfluenceQ map size idx off
            = w1 * map.getD idx 0 + w2 * map.getD (idx + 1) 0
              + w3 * map.getD (idx + size) 0 + w4 * map.getD (idx + 1 + size) 0 := by
  have h0 : idx < map.length := by omega
  have h1 : idx + 1 < map.length := by omega
  have h2 : idx + size < map.length := by omega
  have h3 : idx + 1 + size < map.length := hlen
  have d01 : idx ≠ idx + 1 := by omega
  have d02 : idx ≠ idx + size := by omega
  have d03 : idx ≠ idx + 1 + size := by omega
  have d12 : idx + 1 ≠ idx + size := by omega
  have d13 : idx + 1 ≠ idx + 1 + size := by omega
  have d23 : idx + size ≠ idx + 1 + size := by omega
  refine ⟨?_, by ring, ?_⟩
  · unfold incrInfluenceQ
    rw [sum_set_rat _ _ _ (by simpa using h3),
      sum_set_rat _ _ _ (by simpa using h2),
      sum_set_rat _ _ _ (by simpa using h1),
      sum_set_rat _ _ _ h0,
      getD_set_ne _ _ _ _ d01,
      getD_set_ne _ _ _ _ d12, getD_set_ne _ _ _ _ d02,
      getD_set_ne _ _ _ _ d23, getD_set_ne _ _ _ _ d13, getD_set_ne _ _ _ _ d03]
    ring
  · refine ⟨(1 - off.x) * (1 - off.y), off.x * (1 - off.y), (1 - off.x) * off.y,
      off.x * off.y, ?_, ?_, ?_, ?_, by ring, ?_⟩
    · exact mul_nonneg (by linarith) (by linarith)
    · exact mul_nonneg hx0 (by linarith)
    · exact mul_nonneg (by linarith) hy0
    · exact mul_nonneg hx0 hy0
    · unfold getInfluenceQ
      ring

/-- Witness for C10 at a concrete grid. -/
theorem C10_influence_conservation_witness :
    (0 + 1 + 2 < ([1, 2, 3, 4, 5, 6] : List ℚ).length ∧ 2 ≤ 2)
      ∧ ((incrInfluenceQ [1, 2, 3, 4, 5, 6] 2 0 ⟨1/2, 1/2⟩ 1).sum
            = ([1, 2, 3, 4, 5, 6] : List ℚ).sum + 1
          ∧ (1 - (1/2 : ℚ)) * (1 - 1/2) + (1/2) * (1 - 1/2)
              + (1 - (1/2 : ℚ)) * (1/2) + (1/2) * (1/2) = 1
          ∧ ∃ w1 w2 w3 w4 : ℚ, 0 ≤ w1 ∧ 0 ≤ w2 ∧ 0 ≤ w3 ∧ 0 ≤ w4
              ∧ w1 + w2 + w3 + w4 = 1
              ∧ getInfluenceQ [1, 2, 3, 4, 5, 6] 2 0 ⟨1/2, 1/2⟩
                = w1 * ([1, 2, 3, 4, 5, 6] : List ℚ).getD 0 0
                  + w2 * ([1, 2, 3, 4, 5, 6] : List ℚ).getD (0 + 1) 0
                  + w3 * ([1, 2, 3, 4, 5, 6] : List ℚ).getD (0 + 2) 0
                  + w4 * ([1, 2, 3, 4, 5, 6] : List ℚ).getD (0 + 1 + 2) 0) :=
  ⟨⟨by norm_num, le_refl 2⟩,
    C10_influence_conservation [1, 2, 3, 4, 5, 6] 2 0 ⟨1/2, 1/2⟩ 1
      (by norm_num) (le_refl 2) (by norm_num) (by norm_num) (by norm_num) (by norm_num)⟩

/-! ### C6 — normalize on a flat field divides by zero and yields NaN -/

/-- C6 (refuting the claimed flat-field safety): on the flat grid
`[1, 1, 1, 1]` the source computes `(v - min) / (max - min) = 0.0 / 0.0`
for every cell, i.e. `NaN` (`none` in the model) — not a defined constant. -/
theorem C6_flat_field_nan :
    normalize [1, 1, 1, 1] = [none, none, none, none] := by
  norm_num [normalize, fdiv, f32Max]

/-! ### C7 — normalize maps a non-flat bounded grid onto [0, 1] -/

/-- C7: for a non-empty grid with finite (`f32`-representable) heights and
at least two distinct values, `normalize` sends every cell into `[0, 1]`
and attains `0` (at a minimum cell) and `1` (at a maximum cell) exactly. -/
theorem C7_normalize_bounds (data : List ℚ)
    (hfin : ∀ v ∈ data, |v| ≤ f32Max)
    (hne : ∃ a ∈ data, ∃ b ∈ data, a ≠ b) :
    (∀ o ∈ normalize data, ∃ w, o = some w ∧ 0 ≤ w ∧ w ≤ 1)
      ∧ some 0 ∈ normalize data ∧ some 1 ∈ normalize data := by
  obtain ⟨a, ha, b, hb, hab⟩ := hne
  set minV := data.foldl (fun acc v => min v acc) f32Max with hminV
  set maxV := data.foldl (fun acc v => max v acc) (-f32Max) with hmaxV
  have hmin_le : ∀ v ∈ data, minV ≤ v := fun v hv => foldl_min_le_mem data f32Max v hv
  have hle_max : ∀ v ∈ data, v ≤ maxV := fun v hv => mem_le_foldl_max data (-f32Max) v hv
  have hlt : minV < maxV := by
    rcases lt_or_gt_of_ne hab with h | h
    · exact lt_of_le_of_lt (hmin_le a ha) (lt_of_lt_of_le h (hle_max b hb))
    · exact lt_of_le_of_lt (hmin_le b hb) (lt_of_lt_of_le h (hle_max a ha))
  have hden : maxV - minV ≠ 0 := by linarith
  have hdenpos : 0 < maxV - minV := by linarith
  have hmin_mem : minV ∈ data := by
    rcases foldl_min_mem_or data f32Max with h | h
    · exfalso
      have h1 : minV ≤ a := hmin_le a ha
      have h2 : minV ≤ b := hmin_le b hb
      have h3 : a ≤ f32Max := le_of_abs_le (hfin a ha)
      have h4 : b ≤ f32Max := le_of_abs_le (hfin b hb)
      have h5 : maxV ≤ minV ∨ minV < maxV := le_or_lt maxV minV
      rw [← hminV] at h
      have haf : a = f32Max := le_antisymm h3 (h ▸ h1)
      have hbf : b = f32Max := le_antisymm h4 (h ▸ h2)
      exact hab (haf.trans hbf.symm)
    · exact h
  have hmax_mem : maxV ∈ data := by
    rcases foldl_max_mem_or data (-f32Max) with h | h
    · exfalso
      have h1 : a ≤ maxV := hle_max a ha
      have h3 : -f32Max ≤ a := neg_le_of_abs_le (hfin a ha)
      have h4 : -f32Max ≤ b := neg_le_of_abs_le (hfin b hb)
      rw [← hmaxV] at h
      have haf : a = -f32Max := le_antisymm (h ▸ h1) h3
      have hbf : b = -f32Max := le_antisymm (h ▸ hle_max b hb) h4
      exact hab (haf.trans hbf.symm)
    · exact h
  refine ⟨?_, ?_, ?_⟩
  · intro o ho
    rcases List.mem_map.1 ho with ⟨v, hv, rfl⟩
    refine ⟨(v - minV) / (maxV - minV), ?_, ?_, ?_⟩
    · simp [fdiv, hden]
    · exact div_nonneg (by linarith [hmin_le v hv]) (le_of_lt hdenpos)
    · rw [div_le_one hdenpos]
      linarith [hle_max v hv]
  · refine List.mem_map.2 ⟨minV, hmin_mem, ?_⟩
    simp [fdiv, hden]
  · refine List.mem_map.2 ⟨maxV, hmax_mem, ?_⟩
    simp [fdiv, hden, div_self hden]

/-- Witness for C7 on the concrete grid `[0, 1]`. -/
theorem C7_normalize_bounds_witness :
    ((∀ v ∈ ([0, 1] : List ℚ), |v| ≤ f32Max)
        ∧ ∃ a ∈ ([0, 1] : List ℚ), ∃ b ∈ ([0, 1] : List ℚ), a ≠ b)
      ∧ ((∀ o ∈ normalize [0, 1], ∃ w, o = some w ∧ 0 ≤ w ∧ w ≤ 1)
          ∧ some 0 ∈ normalize [0, 1] ∧ some 1 ∈ normalize [0, 1]) :=
  ⟨⟨by
      intro v hv
      simp only [List.mem_cons, List.mem_singleton, List.not_mem_nil, or_false] at hv
      rcases hv with rfl | rfl <;> norm_num [f32Max],
      ⟨0, by norm_num, 1, by norm_num, by norm_num⟩⟩,
    C7_normalize_bounds [0, 1]
      (by
        intro v hv
        simp only [List.mem_cons, List.mem_singleton, List.not_mem_nil, or_false] at hv
        rcases hv with rfl | rfl <;> norm_num [f32Max])
      ⟨0, by norm_num, 1, by norm_num, by norm_num⟩⟩

/-! ### C3 — the per-step mass-transfer bounds -/

/-- C3 counterexample: (a) flowing uphill with `sediment = 1/2 < capacity`,
`delta_height = 10`, the code deposits `min(sediment, Δh/5) = 1/2`, which
exceeds the claimed bound `min(sediment - capacity, Δh) = -1/2` (and also
its clamped form `max(sediment - capacity, 0) = 0`); (b) flowing downhill
with a tiny gap `|Δh| = 10⁻⁶`, the code erodes `1/100`, exceeding the
downhill height gap, contradicting "never exceeds the downhill height gap". -/
theorem C3_counterexample :
    massTransfer (1/2) 10 1 1 = 1/2
      ∧ ¬ massTransfer (1/2) 10 1 1 ≤ min ((1/2 : ℚ) - 1) 10
      ∧ ¬ massTransfer (1/2) 10 1 1 ≤ max ((1/2 : ℚ) - 1) 0
      ∧ massTransfer 0 (-(1/1000000)) 1 1 = -(1/100)
      ∧ (1/1000000 : ℚ) < 1/100 := by
  refine ⟨by norm_num [massTransfer], by norm_num [massTransfer], by
    norm_num [massTransfer], by norm_num [massTransfer, qclamp], by norm_num⟩

/-- C3 amended: the bounds the code actually enforces.  Flowing uphill the
deposit is `min(sediment, Δh/5)` — nonnegative, at most the carried
sediment and at most the uphill gap, but not bounded by the capacity
excess.  Over capacity and not uphill, the deposit is
`(sediment - 1) · deposit_speed / erosion_ease`, with no height-gap bound.
Downhill and under capacity, the eroded amount is
`clamp(speed, 0, 1) · erosion_ease · erode_speed`, independent of both the
remaining capacity gap and the height gap. -/
theorem C3_mass_transfer_bounds (sed dh sp ee : ℚ) :
    (0 < dh → 0 ≤ sed →
      0 ≤ massTransfer sed dh sp ee ∧ massTransfer sed dh sp ee ≤ sed
        ∧ massTransfer sed dh sp ee ≤ dh)
      ∧ (¬ 0 < dh → 1 < sed →
          massTransfer sed dh sp ee = max (sed - 1) 0 * (1 / 100) / ee)
      ∧ (¬ 0 < dh → ¬ 1 < sed →
          massTransfer sed dh sp ee = -(qclamp sp 0 1 * ee * (1 / 100))) := by
  refine ⟨fun hdh hsed => ?_, fun hdh hsed => ?_, fun hdh hsed => ?_⟩
  · unfold massTransfer
    rw [if_pos (Or.inr hdh), if_pos hdh]
    exact ⟨le_min hsed (by positivity), min_le_left _ _,
      le_trans (min_le_right _ _) (by linarith)⟩
  · unfold massTransfer
    rw [if_pos (Or.inl (by rw [min_eq_left (by norm_num : (1:ℚ) ≤ 10)]; exact hsed)),
      if_neg hdh]
    norm_num
  · unfold massTransfer
    rw [if_neg]
    push_neg
    exact ⟨by rw [min_eq_left (by norm_num : (1:ℚ) ≤ 10)]; exact le_of_not_lt hsed,
      le_of_not_lt hdh⟩

/-- Witness for C3's amended bounds at concrete arguments. -/
theorem C3_mass_transfer_bounds_witness :
    ((0 : ℚ) < 1 ∧ (0 : ℚ) ≤ 1/2)
      ∧ (0 ≤ massTransfer (1/2) 1 1 1 ∧ massTransfer (1/2) 1 1 1 ≤ 1/2
          ∧ massTransfer (1/2) 1 1 1 ≤ 1) :=
  ⟨⟨by norm_num, by norm_num⟩,
    (C3_mass_transfer_bounds (1/2) 1 1 1).1 (by norm_num) (by norm_num)⟩

/-! ### Evaluation of the ray/triangle interpolation -/

/-- Closed form of `intersect` on the bottom triangle of a cell: the
determinant is exactly `1` and the hit point interpolates the corner
heights barycentrically. -/
theorem intersect_bottom_eval (x0 y0 z0 z1 z2 x y : ℚ)
    (hu0 : 0 ≤ x - x0) (hu1 : x - x0 ≤ 1) (hv0 : 0 ≤ y - y0)
    (huv : x - x0 + (y - y0) ≤ 1) :
    intersect ⟨x0, y0, z0⟩ ⟨x0 + 1, y0, z1⟩ ⟨x0, y0 + 1, z2⟩ ⟨x, y, 10000⟩ ⟨0, 0, -1⟩
      = some (⟨x, y, z0 + (x - x0) * (z1 - z0) + (y - y0) * (z2 - z0)⟩,
          10000 - (z0 + (x - x0) * (z1 - z0) + (y - y0) * (z2 - z0))) := by
  simp only [intersect, vec3_sub_def, Vec3.cross, Vec3.dot, Vec3.scale, vec3_add_def]
  norm_num
  exact ⟨⟨by linarith, by linarith⟩, ⟨by linarith, huv⟩, by ring, by ring⟩

/-- Closed form of `intersect` on the top triangle of a cell. -/
theorem intersect_top_eval (x0 y0 za zb zc x y : ℚ)
    (hu0 : 1 ≤ x - x0 + (y - y0)) (hx1 : x - x0 ≤ 1) (hy1 : y - y0 ≤ 1) :
    intersect ⟨x0 + 1, y0, za⟩ ⟨x0 + 1, y0 + 1, zb⟩ ⟨x0, y0 + 1, zc⟩
        ⟨x, y, 10000⟩ ⟨0, 0, -1⟩
      = some (⟨x, y, za + (y - y0) * (zb - za) + (x - x0 - 1) * (zb - za)
            - (x - x0 - 1) * (zc - za)⟩,
          10000 - (za + (y - y0) * (zb - za) + (x - x0 - 1) * (zb - za)
            - (x - x0 - 1) * (zc - za))) := by
  simp only [intersect, vec3_sub_def, Vec3.cross, Vec3.dot, Vec3.scale, vec3_add_def]
  norm_num
  exact ⟨⟨by linarith, by linarith⟩, ⟨by linarith, by linarith⟩, by ring, by ring⟩

theorem toUsize_intCast (n : ℤ) : toUsize (n : ℚ) = n.toNat := by
  simp [toUsize]

theorem getZ_of_le_x (data : List ℚ) (size x y : ℕ) (h : size ≤ x) :
    getZ data size x y = 0 := by
  unfold getZ
  rw [if_pos (Or.inl h)]

theorem getZ_of_le_y (data : List ℚ) (size x y : ℕ) (h : size ≤ y) :
    getZ data size x y = 0 := by
  unfold getZ
  rw [if_pos (Or.inr h)]

/-! ### C8 — out-of-bounds queries -/

/-- C8 counterexample: `get_z_interpolated` at the out-of-bounds (negative)
coordinate `x = -1/2` does not return the zero fallback.  The Rust cast
`x_origin as usize` saturates `-1` to `0`, so the triangle corners read the
in-bounds cells of column 0 and the interpolation returns their height `5`. -/
theorem C8_counterexample :
    (-1/2 : ℚ) < 0
      ∧ getZInterpolated [5, 5, 5, 5] 2 (-1/2) (1/2) = some 5
      ∧ (5 : ℚ) ≠ 0 := by
  refine ⟨by norm_num, ?_, by norm_num⟩
  norm_num [getZInterpolated, intersect, getZ, toUsize, Vec3.cross, Vec3.dot,
    Vec3.scale]
  simp

/-- C8 amended: `get_z` returns the zero fallback whenever `x ≥ map_size`
or `y ≥ map_size` (its `usize` arguments cannot be negative), and
`get_z_interpolated` returns `some 0` for continuous coordinates at or
beyond the upper bound (`x ≥ map_size` or `y ≥ map_size`) and never panics
(the ray/triangle `unwrap` always succeeds: the determinant is exactly 1
and the barycentric checks hold by construction).  Negative continuous
coordinates, however, saturate to row/column 0 and may return non-zero
heights (see the counterexample). -/
theorem C8_out_of_bounds_queries (data : List ℚ) (size x y : ℕ) (xq yq : ℚ) :
    (size ≤ x ∨ size ≤ y → getZ data size x y = 0)
      ∧ ((size : ℚ) ≤ xq ∨ (size : ℚ) ≤ yq →
          getZInterpolated data size xq yq = some 0)
      ∧ (getZInterpolated data size xq yq).isSome = true := by
  have hx0 : 0 ≤ xq - (⌊xq⌋ : ℚ) := by linarith [Int.floor_le xq]
  have hx1 : xq - (⌊xq⌋ : ℚ) < 1 := by linarith [Int.lt_floor_add_one xq]
  have hy0 : 0 ≤ yq - (⌊yq⌋ : ℚ) := by linarith [Int.floor_le yq]
  have hy1 : yq - (⌊yq⌋ : ℚ) < 1 := by linarith [Int.lt_floor_add_one yq]
  refine ⟨fun h => by unfold getZ; rw [if_pos h], fun h => ?_, ?_⟩
  · have key : ∀ ux uy : ℕ,
        (size ≤ ux ∨ size ≤ uy) → getZ data size ux uy = 0 := fun ux uy hu => by
      unfold getZ; rw [if_pos hu]
    have hcorner :
        (∀ k : ℕ, getZ data size (toUsize ((⌊xq⌋ : ℤ) : ℚ) + k) (toUsize ((⌊yq⌋ : ℤ) : ℚ)) = 0
          ∧ getZ data size (toUsize ((⌊xq⌋ : ℤ) : ℚ) + k) (toUsize ((⌊yq⌋ : ℤ) : ℚ) + 1) = 0)
        ∧ (∀ k : ℕ, getZ data size (toUsize ((⌊xq⌋ : ℤ) : ℚ)) (toUsize ((⌊yq⌋ : ℤ) : ℚ) + k) = 0
          ∨ True) := by
      constructor
      · intro k
        rcases h with h | h
        · have hfl : (size : ℤ) ≤ ⌊xq⌋ := Int.le_floor.2 (by exact_mod_cast h)
          have hnat : size ≤ (⌊xq⌋).toNat := by omega
          rw [toUsize_intCast]
          exact ⟨key _ _ (Or.inl (by omega)), key _ _ (Or.inl (by omega))⟩
        · have hfl : (size : ℤ) ≤ ⌊yq⌋ := Int.le_floor.2 (by exact_mod_cast h)
          have hnat : size ≤ (⌊yq⌋).toNat := by omega
          rw [toUsize_intCast, toUsize_intCast]
          exact ⟨key _ _ (Or.inr hnat), key _ _ (Or.inr (by omega))⟩
      · intro k; right; trivial
    obtain ⟨hk, -⟩ := hcorner
    have h00 := (hk 0).1
    have h10 := (hk 1).1
    have h01 := (hk 0).2
    have h11 := (hk 1).2
    simp only [add_zero] at h00 h01
    simp only [getZInterpolated]
    split
    next hb =>
      rw [h00, show toUsize ((⌊xq⌋ : ℤ) : ℚ) + 1 = toUsize ((⌊xq⌋ : ℤ) : ℚ) + 1 from rfl,
        h10, h01]
      rw [intersect_bottom_eval _ _ _ _ _ _ _ hx0 (le_of_lt hx1) hy0 (by linarith)]
      simp
    next hb =>
      push_neg at hb
      rw [h10, h11, h01]
      rw [intersect_top_eval _ _ _ _ _ _ _ (by linarith) (le_of_lt hx1) (le_of_lt hy1)]
      simp
  · simp only [getZInterpolated]
    split
    next hb =>
      rw [intersect_bottom_eval _ _ _ _ _ _ _ hx0 (le_of_lt hx1) hy0 (by linarith)]
      rfl
    next hb =>
      push_neg at hb
      rw [intersect_top_eval _ _ _ _ _ _ _ (by linarith) (le_of_lt hx1) (le_of_lt hy1)]
      rfl

/-- Witness for C8 at concrete out-of-bounds coordinates. -/
theorem C8_out_of_bounds_queries_witness :
    getZ [5, 5, 5, 5] 2 3 0 = 0
      ∧ getZInterpolated [5, 5, 5, 5] 2 (5/2) (1/2) = some 0 :=
  ⟨(C8_out_of_bounds_queries [5, 5, 5, 5] 2 3 0 (5/2) (1/2)).1 (by norm_num),
    (C8_out_of_bounds_queries [5, 5, 5, 5] 2 3 0 (5/2) (1/2)).2.1 (by norm_num)⟩

/-! ### C9 — loop bounds of erode -/

/-- Iteration count carried by a droplet outcome. -/
def dropSteps : DropOut → ℕ
  | .finished _ n => n
  | .aborted => 0

theorem dropletLoop_steps_le (ops : FloatOps) (data : List ℚ) (velMap : List Vec2)
    (size : ℕ) : ∀ (fuel : ℕ) (st : DropState) (acc : ℕ),
    dropSteps (dropletLoop ops data velMap size fuel st acc) ≤ acc + fuel := by
  intro fuel
  induction fuel with
  | zero => intro st acc; simp [dropletLoop, dropSteps]
  | succ fuel ih =>
    intro st acc
    simp only [dropletLoop]
    repeat' split
    all_goals first
      | exact le_trans (ih _ (acc + 1)) (by omega)
      | (simp [dropSteps]; try omega)

/-- C9: `erode` terminates structurally — each droplet's simulation loop
runs at most `map_size / 4` iterations (the Rust `for _ in
0..(map_size / 4)` bound), the outer loop processes exactly
`(map_size as f32 * intensity) as usize = ⌊map_size · intensity⌋`
particles, and the embedding of the whole call is a total function. -/
theorem C9_erode_terminates (ops : FloatOps) (data : List ℚ) (velMap : List Vec2)
    (size : ℕ) (st : DropState) (s : ℕ) (intensity : ℚ) :
    dropSteps (dropletLoop ops data velMap size (size / 4) st 0) ≤ size / 4
      ∧ (spawnsFrom size s (totalParticles size intensity)).length
          = totalParticles size intensity
      ∧ totalParticles size intensity = (⌊(size : ℚ) * intensity⌋).toNat := by
  refine ⟨by simpa using dropletLoop_steps_le ops data velMap size (size / 4) st 0,
    ?_, rfl⟩
  generalize totalParticles size intensity = n
  induction n generalizing s with
  | zero => simp [spawnsFrom]
  | succ n ih => simp [spawnsFrom, ih]

/-! ### C1 — determinism of the terrain pipeline -/

/-- C1: the pipeline is deterministic.  `PerlinMap::new` is a pure function
of `(map_size, amplitude, seed)`, and `erode` a pure function of the
initial grid state, the intensity and the seed (the RNG is seeded once from
`seed` and threaded sequentially; there is no other source of
nondeterminism in the translation), so two calls on equal arguments —
including on two identical copies of the map — produce identical height
data and identical returned moisture grids. -/
theorem C1_deterministic (size₁ size₂ : ℕ) (amp₁ amp₂ : ℚ) (sd₁ sd₂ : ℤ)
    (ops : FloatOps) (m₁ m₂ : PerlinMap) (i₁ i₂ : ℚ) (s₁ s₂ : ℕ)
    (hsize : size₁ = size₂) (hamp : amp₁ = amp₂) (hsd : sd₁ = sd₂)
    (hdata : m₁.data = m₂.data) (hms : m₁.mapSize = m₂.mapSize)
    (hi : i₁ = i₂) (hs : s₁ = s₂) :
    PerlinMap.new size₁ amp₁ sd₁ = PerlinMap.new size₂ amp₂ sd₂
      ∧ PerlinMap.erode ops m₁ i₁ s₁ = PerlinMap.erode ops m₂ i₂ s₂ := by
  subst hsize hamp hsd hi hs
  refine ⟨rfl, ?_⟩
  cases m₁ with
  | mk d₁ n₁ =>
    cases m₂ with
    | mk d₂ n₂ =>
      simp only at hdata hms
      subst hdata hms
      rfl

/-- Witness for C1 at concrete arguments. -/
theorem C1_deterministic_witness :
    PerlinMap.new 2 1 0 = PerlinMap.new 2 1 0
      ∧ PerlinMap.erode mops ⟨[0, 0, 0, 0], 2⟩ 0 0
          = PerlinMap.erode mops ⟨[0, 0, 0, 0], 2⟩ 0 0 :=
  C1_deterministic 2 2 1 1 0 0 mops ⟨[0, 0, 0, 0], 2⟩ ⟨[0, 0, 0, 0], 2⟩ 0 0 0 0
    rfl rfl rfl rfl rfl rfl rfl

/-! ### Concrete erosion runs -/

/-- A 4×4 all-zero (flat) height grid. -/
def flatData : List ℚ := [0, 0, 0, 0, 0, 0, 0, 0, 0, 0, 0, 0, 0, 0, 0, 0]

/-- Sixteen zero velocity cells. -/
def zeroVel : List Vec2 :=
  [Vec2.zero, Vec2.zero, Vec2.zero, Vec2.zero, Vec2.zero, Vec2.zero, Vec2.zero,
    Vec2.zero, Vec2.zero, Vec2.zero, Vec2.zero, Vec2.zero, Vec2.zero, Vec2.zero,
    Vec2.zero, Vec2.zero]

/-- The flat-map erosion state (4×4 grid, fresh velocity/moisture maps). -/
def flatState : ErodeState := ⟨flatData, zeroVel, flatData⟩

/-- A 4×4 grid descending in `x` (slope `-3/4` per cell, all heights below
sea level), with a deep pit (height `-1000`) at cell `7` = `(x, y) = (3, 1)`. -/
def rampData : List ℚ :=
  [0, -3/4, -3/2, -9/4,
   0, -3/4, -3/2, -1000,
   0, -3/4, -3/2, -9/4,
   0, -3/4, -3/2, -9/4]

/-- The ramp-map erosion state. -/
def rampState : ErodeState := ⟨rampData, zeroVel, flatData⟩

set_option maxHeartbeats 4000000 in
/-- C4 (code bug): on a flat map the gradient is zero, so the droplet's
velocity stays `(0, 0)` and `speed = 0`; the Rust code then computes
`dir = vel / 0.0 = (NaN, NaN)`, `pos` becomes NaN, every comparison of the
bounds check is false on NaN so the loop does not break, and the next
`get_z_interpolated(pos.x, ...)` call panics on `assert!(!x.is_nan())` —
instead of terminating the droplet as the claim states.  The model returns
`none` (`DropOut.aborted`) for that panic. -/
theorem C4_zero_velocity_nan_panic :
    runParticle mops 4 flatState ⟨3/2, 3/2⟩ = none := by
  norm_num [runParticle, dropletLoop, flatState, flatData, zeroVel,
    getZInterpolated, intersect, getZ, toUsize, getNormal, triNormal,
    getInfluenceV, massTransfer, qclamp, mops, modelPowf, modelSqrt,
    Vec2.normSq, Vec2.scale, Vec2.sdiv, Vec2.zero, Vec3.xy, Vec3.cross,
    Vec3.dot, Vec3.scale]
  simp

/-! ### C2 — no cascading pass: per-step writes hit only the 4-cell stencil -/

/-- The four grid cells written by one bilinear `incr_influence` command. -/
def stencil (idx size : ℕ) : List ℕ := [idx, idx + 1, idx + size, idx + 1 + size]

/-- The height commands issued by a droplet outcome. -/
def cmdsOf : DropOut → List (ℕ × Vec2 × ℚ)
  | .finished s _ => s.mapCmds
  | .aborted => []

theorem incrInfluenceQ_getD_of_not_mem (map : List ℚ) (size idx : ℕ) (off : Vec2)
    (amt : ℚ) (j : ℕ) (hj : j ∉ stencil idx size) :
    (incrInfluenceQ map size idx off amt).getD j 0 = map.getD j 0 := by
  simp only [stencil, List.mem_cons, List.not_mem_nil, or_false, not_or] at hj
  obtain ⟨h1, h2, h3, h4⟩ := hj
  unfold incrInfluenceQ
  rw [getD_set_ne _ _ _ _ (Ne.symm h4), getD_set_ne _ _ _ _ (Ne.symm h3),
    getD_set_ne _ _ _ _ (Ne.symm h2), getD_set_ne _ _ _ _ (Ne.symm h1)]

theorem flushMapCmds_getD_of_not_mem (size j : ℕ) :
    ∀ (cmds : List (ℕ × Vec2 × ℚ)) (data : List ℚ),
    (∀ c ∈ cmds, j ∉ stencil c.1 size) →
    (flushMapCmds size data cmds).getD j 0 = data.getD j 0 := by
  intro cmds
  induction cmds with
  | nil => intro data _; rfl
  | cons c rest ih =>
    intro data hc
    obtain ⟨idx, off, dz⟩ := c
    rw [flushMapCmds, ih _ (fun c hmem => hc c (List.mem_cons_of_mem _ hmem)),
      incrInfluenceQ_getD_of_not_mem _ _ _ _ _ _ (hc _ (List.mem_cons_self _ _))]

/-- C2 amended: `erode` performs no cascading/thermal-relaxation pass.  The
only height-grid effect of a particle is the flush of its buffered
`(droplet_index, cell_offset, delta_z)` commands, each applied by
`incr_influence` to the 4 bilinear stencil cells
`{idx, idx+1, idx+map_size, idx+map_size+1}` of the particle's pre-move
node; every cell outside the union of those stencils — in particular any of
the 8 neighbors of the particle's new position not in a stencil — is left
exactly unchanged, no matter how large the height difference to it is. -/
theorem C2_no_cascading (ops : FloatOps) (size : ℕ) (st : ErodeState)
    (spawn : Vec2) (st' : ErodeState) (j : ℕ)
    (hrun : runParticle ops size st spawn = some st')
    (hj : ∀ c ∈ cmdsOf (dropletLoop ops st.data st.velMap size (size / 4)
        ⟨spawn, Vec2.zero, 0, st.moist, [], []⟩ 0), j ∉ stencil c.1 size) :
    st'.data.getD j 0 = st.data.getD j 0 := by
  unfold runParticle at hrun
  cases hd : dropletLoop ops st.data st.velMap size (size / 4)
      ⟨spawn, Vec2.zero, 0, st.moist, [], []⟩ 0 with
  | aborted => rw [hd] at hrun; simp at hrun
  | finished d n =>
    rw [hd] at hrun
    simp only [Option.some.injEq] at hrun
    rw [hd] at hj
    simp only [cmdsOf] at hj
    rw [← hrun]
    exact flushMapCmds_getD_of_not_mem size j d.mapCmds st.data hj

/-- Witness for C2's amended locality statement: a particle whose droplet
breaks immediately (spawn in the last row) issues no commands and leaves
the grid untouched. -/
theorem C2_no_cascading_witness :
    runParticle mops 4 flatState ⟨7/2, 7/2⟩ = some flatState
      ∧ flatState.data.getD 0 0 = flatState.data.getD 0 0 := by
  have h1 : runParticle mops 4 flatState ⟨7/2, 7/2⟩ = some flatState := by
    norm_num [runParticle, dropletLoop, flatState, flatData, zeroVel,
      flushMapCmds, flushVelCmds]
  have h2 : ∀ c ∈ cmdsOf (dropletLoop mops flatState.data flatState.velMap 4 (4 / 4)
      ⟨⟨7/2, 7/2⟩, Vec2.zero, 0, flatState.moist, [], []⟩ 0),
      (0 : ℕ) ∉ stencil c.1 4 := by
    norm_num [dropletLoop, cmdsOf, flatState, flatData, zeroVel]
  exact ⟨h1, C2_no_cascading mops 4 flatState ⟨7/2, 7/2⟩ flatState 0 h1 h2⟩

/-- The moisture map after the ramp-map particle (cells 5, 6, 9, 10 get
`0.1 · speed / erosion_ease = 1/4`, bilinearly split into `1/16` each). -/
def rampMoist : List ℚ :=
  [0, 0, 0, 0, 0, 1/16, 1/16, 0, 0, 1/16, 1/16, 0, 0, 0, 0, 0]

/-- The ramp heights after the particle's single step is flushed: cells
5, 6, 9, 10 each lose `(1/250) · (1/4) = 1/1000`. -/
def rampDataAfter : List ℚ :=
  [0, -3/4, -3/2, -9/4,
   0, -751/1000, -1501/1000, -1000,
   0, -751/1000, -1501/1000, -9/4,
   0, -3/4, -3/2, -9/4]

/-- The velocity map after the ramp-map particle. -/
def rampVelAfter : List Vec2 :=
  [Vec2.zero, Vec2.zero, Vec2.zero, Vec2.zero, Vec2.zero, ⟨1/4, 0⟩, ⟨1/4, 0⟩,
    Vec2.zero, Vec2.zero, ⟨1/4, 0⟩, ⟨1/4, 0⟩, Vec2.zero, Vec2.zero, Vec2.zero,
    Vec2.zero, Vec2.zero]

set_option maxHeartbeats 8000000 in
/-- One droplet step on the ramp map, evaluated in closed form: the
particle at `(3/2, 3/2)` (node cell 5) slides to `(5/2, 3/2)` and issues
one erosion command of `-1/250` at cell 5's bilinear stencil. -/
theorem rampDropletRun :
    dropletLoop mops rampData zeroVel 4 1
        ⟨⟨3/2, 3/2⟩, Vec2.zero, 0, flatData, [], []⟩ 0
      = .finished ⟨⟨5/2, 3/2⟩, ⟨1, 0⟩, 1/250, rampMoist,
          [(5, ⟨1/2, 1/2⟩, -1/250)], [(5, ⟨1/2, 1/2⟩, ⟨1, 0⟩)]⟩ 1 := by
  norm_num [dropletLoop, rampData, zeroVel, flatData, rampMoist,
    getZInterpolated, intersect, getZ, toUsize, getNormal, triNormal,
    getInfluenceV, massTransfer, qclamp, mops, modelPowf, modelSqrt,
    incrInfluenceQ, Vec2.normSq, Vec2.scale, Vec2.sdiv, Vec2.zero, Vec3.xy,
    Vec3.cross, Vec3.dot, Vec3.scale]
  try simp
  try norm_num [getZInterpolated, intersect, getZ, toUsize, massTransfer,
    qclamp, incrInfluenceQ, Int.fract]
  try simp
  try norm_num [Int.fract]

set_option maxHeartbeats 8000000 in
/-- The full one-particle run on the ramp map, in closed form. -/
theorem rampErodeRun :
    erodeWith mops 4 rampState [⟨3/2, 3/2⟩]
      = some ⟨rampDataAfter, rampVelAfter, rampMoist⟩ := by
  have h4 : (4 : ℕ) / 4 = 1 := rfl
  simp only [erodeWith, runParticle, rampState, h4, rampDropletRun]
  norm_num [flushMapCmds, flushVelCmds, incrInfluenceQ, incrInfluenceV,
    rampData, zeroVel, rampDataAfter, rampVelAfter, rampMoist, Vec2.zero,
    Vec2.scale]
  try simp

set_option maxHeartbeats 8000000 in
/-- C2 counterexample: on the ramp map the particle spawned at `(3/2, 3/2)`
moves to new position `(5/2, 3/2)` (node = cell 6) and erodes; the adjacent
cell 7 — one of the 8 neighbors of the new position — sits `998.499` units
below cell 6 after the step, far beyond any plausible talus threshold, yet
its height is exactly unchanged: no cascading redistribution exists in the
code (the step wrote only the bilinear stencil `{5, 6, 9, 10}`). -/
theorem C2_counterexample :
    (erodeWith mops 4 rampState [⟨3/2, 3/2⟩]).map (fun st => st.data.getD 7 0)
        = some (-1000)
      ∧ rampData.getD 7 0 = -1000
      ∧ (erodeWith mops 4 rampState [⟨3/2, 3/2⟩]).map
          (fun st => st.data.getD 6 0 - st.data.getD 7 0) = some (998499/1000)
      ∧ (100 : ℚ) < 998499/1000 := by
  refine ⟨?_, by norm_num [rampData], ?_, by norm_num⟩ <;>
    (rw [rampErodeRun]; norm_num [rampDataAfter])

/-! ### C5 — no sea-level check on spawn -/

/-- C5 amended: `erode` has no sea-level test — every drawn spawn position
is handed to the particle simulation unconditionally (there is no height
check anywhere between drawing the position and entering the droplet loop). -/
theorem C5_unconditional_spawn (ops : FloatOps) (size : ℕ) (st : ErodeState)
    (spawn : Vec2) (rest : List Vec2) :
    erodeWith ops size st (spawn :: rest)
      = match runParticle ops size st spawn with
        | none => none
        | some st' => erodeWith ops size st' rest := rfl

set_option maxHeartbeats 8000000 in
/-- C5 counterexample: the terrain height at the spawn `(3/2, 3/2)` of the
ramp map is `-9/8` — below the spec's sea level `0.5` (indeed below `0`) —
yet the particle is not skipped: it simulates and changes cell 5 of the
height grid from `-3/4` to `-751/1000`. -/
theorem C5_counterexample :
    getZInterpolated rampData 4 (3/2) (3/2) = some (-9/8)
      ∧ (-9/8 : ℚ) < 1/2
      ∧ (erodeWith mops 4 rampState [⟨3/2, 3/2⟩]).map (fun st => st.data.getD 5 0)
          = some (-751/1000)
      ∧ rampData.getD 5 0 = -3/4
      ∧ (-751/1000 : ℚ) ≠ -3/4 := by
  refine ⟨?_, by norm_num, ?_, by norm_num [rampData], by norm_num⟩
  · norm_num [getZInterpolated, intersect, getZ, toUsize, rampData,
      Vec3.cross, Vec3.dot, Vec3.scale]
    try simp
  · rw [rampErodeRun]
    norm_num [rampDataAfter]

end TreasureHunt
